import Mathlib

/-!
Verification of the s3-uploader core against its specification.

The Go source is embedded shallowly: loops become recursion on the number of
remaining bytes or remaining attempts, machine integers become `Nat`/`Int`
(file sizes and offsets are non-negative throughout the code), transport and
filesystem effects become explicit oracle parameters, and event traces record
which store operations a code path performs.
-/

namespace S3up

/-! ## Multipart chunking

Embeds the part-splitting loops of `UploadFileMultipart` (multipart.go) and
`ParallelMultipartUploader.Upload` (multipart_parallel.go).  Both iterate
`for offset < fileSize`, take `partSize = chunkSize` truncated to the
remaining bytes, and assign 1-based consecutive part numbers.
-/

structure PartJob where
  partNumber : Nat
  offset : Nat
  size : Nat
deriving DecidableEq, Repr

/-- The common part-generation loop: at each step the part covers
`min chunk remaining` bytes.  `pn` is the number of parts already emitted and
`offset` the bytes already covered.  Each iteration consumes at least one
byte, so `fuel := remaining` bounds the iteration count; a zero `chunk` makes
the Go loop diverge, so every theorem assumes `0 < chunk`. -/
def genParts (chunk : Nat) : Nat → Nat → Nat → Nat → List PartJob
  | 0, _, _, _ => []
  | f + 1, pn, offset, remaining =>
    if remaining = 0 ∨ chunk = 0 then []
    else
      { partNumber := pn + 1, offset := offset, size := min chunk remaining } ::
        genParts chunk f (pn + 1) (offset + min chunk remaining)
          (remaining - min chunk remaining)

/-- The list of parts a multipart upload of `size` bytes with effective chunk
size `chunk` produces (both the sequential loop and the parallel job queue). -/
def partJobs (size chunk : Nat) : List PartJob :=
  genParts chunk size 0 0 size

/-- Closed form of the generation loop. -/
theorem genParts_closed (chunk : Nat) (hchunk : 0 < chunk) :
    ∀ fuel remaining pn offset, remaining ≤ fuel →
      genParts chunk fuel pn offset remaining =
      (List.range ((remaining + chunk - 1) / chunk)).map
        (fun i => { partNumber := pn + i + 1, offset := offset + i * chunk,
                    size := min ((i + 1) * chunk) remaining - i * chunk }) := by
  intro fuel
  induction fuel with
  | zero =>
    intro remaining pn offset hfuel
    have hr : remaining = 0 := by omega
    subst hr
    have h0 : (0 + chunk - 1) / chunk = 0 := Nat.div_eq_of_lt (by omega)
    rw [genParts, h0]
    simp
  | succ f ih =>
    intro remaining pn offset hfuel
    by_cases hr : remaining = 0
    · subst hr
      have h0 : (0 + chunk - 1) / chunk = 0 := Nat.div_eq_of_lt (by omega)
      rw [genParts, if_pos (Or.inl rfl), h0]
      simp
    · have hcd : ¬(remaining = 0 ∨ chunk = 0) := by omega
      rw [genParts, if_neg hcd]
      rw [ih _ _ _ (by omega)]
      by_cases hc : remaining ≤ chunk
      · -- a single final part of `remaining` bytes
        have h1 : min chunk remaining = remaining := by omega
        have hk0 : (remaining - min chunk remaining + chunk - 1) / chunk = 0 :=
          Nat.div_eq_of_lt (by omega)
        have hk1 : (remaining + chunk - 1) / chunk = 1 :=
          Nat.div_eq_of_lt_le (by omega) (by omega)
        rw [hk0, hk1]
        have hr1 : List.range 1 = [0] := rfl
        rw [hr1]
        simp only [List.range_zero, List.map_nil, List.map_cons]
        refine List.cons_eq_cons.mpr ⟨?_, rfl⟩
        congr 1 <;> omega
      · -- a full `chunk`-sized part followed by the rest
        have h1 : min chunk remaining = chunk := by omega
        rw [h1]
        have hk : (remaining + chunk - 1) / chunk
            = (remaining - chunk + chunk - 1) / chunk + 1 := by
          have h2 : remaining + chunk - 1 = (remaining - 1) + chunk := by omega
          have h3 : remaining - chunk + chunk - 1 = remaining - 1 := by omega
          rw [h2, h3, Nat.add_div_right _ hchunk]
        rw [hk, List.range_succ_eq_map, List.map_cons, List.map_map]
        refine List.cons_eq_cons.mpr ⟨?_, ?_⟩
        · congr 1 <;> omega
        · apply List.map_congr_left
          intro i _
          simp only [Function.comp_apply, Nat.succ_eq_add_one]
          have e1 : (i + 1) * chunk = i * chunk + chunk := by ring
          have e2 : (i + 1 + 1) * chunk = i * chunk + chunk + chunk := by ring
          congr 1 <;> omega

/-- Closed form of `partJobs`: part `i+1` (0-based `i`) covers
`[i*chunk, min ((i+1)*chunk) size)`. -/
theorem partJobs_closed (size chunk : Nat) (h : 0 < chunk) :
    partJobs size chunk = (List.range ((size + chunk - 1) / chunk)).map
      (fun i => { partNumber := i + 1, offset := i * chunk,
                  size := min ((i + 1) * chunk) size - i * chunk }) := by
  rw [partJobs, genParts_closed chunk h size size 0 0 (Nat.le_refl size)]
  apply List.map_congr_left
  intro i _
  simp

/-- S3's minimum part size, `minPartSize` in `UploadFileMultipart`. -/
def minPartSize : Nat := 5 * 1024 * 1024

/-- The part list produced by the sequential entry point
`UploadFileMultipart` (multipart.go lines 165-246): the requested chunk size
is raised to `minPartSize` before splitting. -/
def UploadFileMultipart_parts (fileSize chunkSize : Nat) : List PartJob :=
  partJobs fileSize (if chunkSize < minPartSize then minPartSize else chunkSize)

/-- The part list produced by the parallel entry point
`UploadFileMultipartParallel` together with `ParallelMultipartUploader.Upload`
(multipart_parallel.go lines 48-101 and 195-245): the requested chunk size is
used as-is, with no `minPartSize` adjustment anywhere on this path. -/
def UploadFileMultipartParallel_parts (fileSize chunkSize : Nat) : List PartJob :=
  partJobs fileSize chunkSize

/-- Ordering used by `CompleteMultipartUpload` (multipart.go lines 109-116):
`sort.Slice` on the recorded parts by part number. -/
def partLE (a b : PartJob) : Prop := a.partNumber ≤ b.partNumber

instance : DecidableRel partLE := fun a b => Nat.decLe a.partNumber b.partNumber

instance : IsTotal PartJob partLE := ⟨fun a b => Nat.le_total a.partNumber b.partNumber⟩

instance : IsTrans PartJob partLE := ⟨fun _ _ _ h1 h2 => Nat.le_trans h1 h2⟩

/-- The sorted part list `CompleteMultipartUpload` submits to the store:
the session's recorded parts, sorted ascending by part number. -/
def CompleteMultipartUpload_submitted (recorded : List PartJob) : List PartJob :=
  recorded.insertionSort partLE

theorem partJobs_map_partNumber (size chunk : Nat) (h : 0 < chunk) :
    (partJobs size chunk).map PartJob.partNumber
      = List.range' 1 ((size + chunk - 1) / chunk) := by
  rw [partJobs_closed size chunk h, List.map_map, List.range'_eq_map_range]
  apply List.map_congr_left
  intro i _
  simp [Nat.add_comm]

/-- C1: for every multipart upload of `fileSize` bytes with effective chunk
size `chunk` that reaches `CompleteMultipartUpload` (so the session has
recorded one part per generated job, in whatever order the uploads finished),
the part numbers submitted to the store are exactly `1..⌈fileSize/chunk⌉`,
strictly ascending with no duplicates, and part `n` covers the byte range
`[(n-1)*chunk, min (n*chunk) fileSize)`, so only the final part may be
smaller than `chunk`. -/
theorem complete_multipart_parts_contiguous
    (fileSize chunk : Nat) (hchunk : 0 < chunk)
    (recorded : List PartJob)
    (hrec : List.Perm recorded (partJobs fileSize chunk)) :
    (CompleteMultipartUpload_submitted recorded).map PartJob.partNumber
        = List.range' 1 ((fileSize + chunk - 1) / chunk)
    ∧ (∀ p ∈ partJobs fileSize chunk,
        p.offset = (p.partNumber - 1) * chunk
        ∧ p.offset + p.size = min (p.partNumber * chunk) fileSize
        ∧ (p.partNumber < (fileSize + chunk - 1) / chunk → p.size = chunk)) := by
  constructor
  · have hsorted : List.Sorted partLE (CompleteMultipartUpload_submitted recorded) :=
      List.sorted_insertionSort partLE recorded
    have hmaps : List.Sorted (· ≤ ·)
        ((CompleteMultipartUpload_submitted recorded).map PartJob.partNumber) :=
      List.Pairwise.map _ (fun _ _ hab => hab) hsorted
    have hperm : List.Perm
        ((CompleteMultipartUpload_submitted recorded).map PartJob.partNumber)
        (List.range' 1 ((fileSize + chunk - 1) / chunk)) := by
      rw [← partJobs_map_partNumber fileSize chunk hchunk]
      exact ((List.perm_insertionSort partLE recorded).trans hrec).map _
    refine List.eq_of_perm_of_sorted hperm hmaps ?_
    exact List.Pairwise.imp (fun hab => Nat.le_of_lt hab) (List.pairwise_lt_range' ..)
  · intro p hp
    rw [partJobs_closed fileSize chunk hchunk] at hp
    obtain ⟨i, hi, rfl⟩ := List.mem_map.mp hp
    dsimp only
    have hiN : i < (fileSize + chunk - 1) / chunk := List.mem_range.mp hi
    have e1 : (i + 1) * chunk = i * chunk + chunk := by ring
    have h1 : (i + 1) * chunk ≤ fileSize + chunk - 1 :=
      (Nat.le_div_iff_mul_le hchunk).mp (by omega)
    have e0 : (i + 1 - 1) * chunk = i * chunk := by
      congr 1
    refine ⟨e0.symm, by omega, ?_⟩
    intro hlt
    have e2 : (i + 1 + 1) * chunk = i * chunk + chunk + chunk := by ring
    have h2 : (i + 1 + 1) * chunk ≤ fileSize + chunk - 1 :=
      (Nat.le_div_iff_mul_le hchunk).mp (by omega)
    omega

/-- Witness for C1: a 12-byte file with chunk size 5, parts recorded out of
order. -/
theorem complete_multipart_parts_contiguous_witness :
    0 < 5 ∧ List.Perm [⟨3, 10, 2⟩, ⟨1, 0, 5⟩, ⟨2, 5, 5⟩] (partJobs 12 5)
    ∧ ((CompleteMultipartUpload_submitted
          [⟨3, 10, 2⟩, ⟨1, 0, 5⟩, ⟨2, 5, 5⟩]).map PartJob.partNumber
        = List.range' 1 ((12 + 5 - 1) / 5)
      ∧ (∀ p ∈ partJobs 12 5,
          p.offset = (p.partNumber - 1) * 5
          ∧ p.offset + p.size = min (p.partNumber * 5) 12
          ∧ (p.partNumber < (12 + 5 - 1) / 5 → p.size = 5))) :=
  ⟨by decide, by decide,
    complete_multipart_parts_contiguous 12 5 (by decide) _ (by decide)⟩

/-- C3: the sequential entry point raises a 1-byte requested chunk to 5 MiB
(one part for a 2-byte file), but the parallel entry point splits the same
2-byte file with the raw chunk size 1 into two 1-byte parts, diverging from
`max(requested, 5 MiB)`. -/
theorem parallel_chunk_not_clamped :
    UploadFileMultipart_parts 2 1 = [⟨1, 0, 2⟩]
    ∧ UploadFileMultipart_parts 2 1 = partJobs 2 (max 1 minPartSize)
    ∧ UploadFileMultipartParallel_parts 2 1 = [⟨1, 0, 1⟩, ⟨2, 1, 1⟩]
    ∧ UploadFileMultipartParallel_parts 2 1 ≠ partJobs 2 (max 1 minPartSize) := by
  decide

/-! ## Multipart session lifecycle

Embeds the create/complete/abort structure shared by `UploadFileMultipart`
(multipart.go lines 200-255) and `UploadFileMultipartParallel`
(multipart_parallel.go lines 222-254): after a successful
`CreateMultipartUpload` a deferred function runs
`AbortMultipartUpload(context.Background())` whenever the function is about
to return a non-nil error.
-/

inductive MpEvent where
  | create
  | uploadPart (n : Nat)
  | complete
  | abort (freshCtx : Bool)
deriving DecidableEq, Repr

/-- The sequential part loop of `UploadFileMultipart` (lines 216-246): each
job issues one `UploadPart` call; the loop stops at the first failure.
`partOk n` says whether the store accepts part `n`.  Returns the events and
whether all parts succeeded. -/
def seqParts (partOk : Nat → Bool) : List PartJob → List MpEvent × Bool
  | [] => ([], true)
  | j :: rest =>
    if partOk j.partNumber then
      (MpEvent.uploadPart j.partNumber :: (seqParts partOk rest).1,
        (seqParts partOk rest).2)
    else ([MpEvent.uploadPart j.partNumber], false)

/-- The shared driver: create the session, run the part phase, call complete,
with the deferred abort on a fresh `context.Background()` (the `true` flag on
`abort`) whenever `uploadErr` is non-nil.  Returns the event trace and
whether the function returned an error. -/
def multipartDriverTrace (createOk : Bool) (partPhase : List MpEvent × Bool)
    (completeOk : Bool) : List MpEvent × Bool :=
  if createOk = false then ([MpEvent.create], true)
  else if partPhase.2 = false then
    (MpEvent.create :: partPhase.1 ++ [MpEvent.abort true], true)
  else if completeOk then
    (MpEvent.create :: partPhase.1 ++ [MpEvent.complete], false)
  else
    (MpEvent.create :: partPhase.1 ++ [MpEvent.complete, MpEvent.abort true], true)

def countComplete (evs : List MpEvent) : Nat :=
  evs.countP (fun e => match e with | MpEvent.complete => true | _ => false)

def countAbort (evs : List MpEvent) : Nat :=
  evs.countP (fun e => match e with | MpEvent.abort _ => true | _ => false)

/-- C2 (counterexample): a 1-byte upload whose single part succeeds but whose
`CompleteMultipartUpload` fails invokes BOTH `complete_multipart` and
`abort_multipart` on the same session, so "exactly one of the two is invoked"
fails on the code. -/
theorem multipart_complete_and_abort_both_invoked :
    multipartDriverTrace true
        (seqParts (fun _ => true) (UploadFileMultipart_parts 1 (5 * 1024 * 1024)))
        false
      = ([MpEvent.create, MpEvent.uploadPart 1, MpEvent.complete,
          MpEvent.abort true], true)
    ∧ countComplete [MpEvent.create, MpEvent.uploadPart 1, MpEvent.complete,
          MpEvent.abort true] = 1
    ∧ countAbort [MpEvent.create, MpEvent.uploadPart 1, MpEvent.complete,
          MpEvent.abort true] = 1 := by
  decide

theorem seqParts_events (partOk : Nat → Bool) (jobs : List PartJob) :
    countComplete (seqParts partOk jobs).1 = 0
    ∧ countAbort (seqParts partOk jobs).1 = 0 := by
  induction jobs with
  | nil => simp [seqParts, countComplete, countAbort]
  | cons j rest ih =>
    by_cases h : partOk j.partNumber
    · simp [seqParts, h, countComplete, countAbort] at ih ⊢
      exact ih
    · simp [seqParts, h, countComplete, countAbort]

theorem seqParts_no_abort (partOk : Nat → Bool) (jobs : List PartJob)
    (fresh : Bool) : MpEvent.abort fresh ∉ (seqParts partOk jobs).1 := by
  induction jobs with
  | nil => simp [seqParts]
  | cons j rest ih =>
    by_cases h : partOk j.partNumber
    · simp [seqParts, h]
      exact fun hab => ih hab
    · simp [seqParts, h]

/-- C2 amended: per created session, `complete_multipart` is invoked exactly
once when all parts succeed (never otherwise), `abort_multipart` is invoked
exactly once on every error path — a part failure, or a failed complete, in
which case both calls occur — and never when complete succeeds; every abort
runs on a fresh background context. -/
theorem multipart_session_cleanup
    (createOk completeOk : Bool) (partOk : Nat → Bool) (jobs : List PartJob)
    (hcreate : createOk = true) :
    countComplete (multipartDriverTrace createOk (seqParts partOk jobs)
        completeOk).1
      = (if (seqParts partOk jobs).2 = true then 1 else 0)
    ∧ countAbort (multipartDriverTrace createOk (seqParts partOk jobs)
        completeOk).1
      = (if (seqParts partOk jobs).2 = true ∧ completeOk = true then 0 else 1)
    ∧ (∀ fresh, MpEvent.abort fresh
          ∈ (multipartDriverTrace createOk (seqParts partOk jobs) completeOk).1
        → fresh = true) := by
  subst hcreate
  obtain ⟨hc, ha⟩ := seqParts_events partOk jobs
  by_cases hok : (seqParts partOk jobs).2 = true
  · by_cases hcomp : completeOk = true
    · have htr : multipartDriverTrace true (seqParts partOk jobs) completeOk
          = (MpEvent.create :: (seqParts partOk jobs).1
              ++ [MpEvent.complete], false) := by
        simp [multipartDriverTrace, hok, hcomp]
      rw [htr]
      simp only [countComplete, countAbort] at hc ha ⊢
      refine ⟨?_, ?_, ?_⟩
      · simp [List.countP_cons, List.countP_append, hc, hok]
      · simp [List.countP_cons, List.countP_append, ha, hok, hcomp]
      · intro fresh hmem
        simp only [List.mem_cons, List.mem_append, List.not_mem_nil,
          or_false] at hmem
        rcases hmem with (h | h) | h
        · exact MpEvent.noConfusion h
        · exact absurd h (seqParts_no_abort partOk jobs fresh)
        · exact MpEvent.noConfusion h
    · have htr : multipartDriverTrace true (seqParts partOk jobs) completeOk
          = (MpEvent.create :: (seqParts partOk jobs).1
              ++ [MpEvent.complete, MpEvent.abort true], true) := by
        have hcomp2 : completeOk = false := by simpa using hcomp
        simp [multipartDriverTrace, hok, hcomp2]
      rw [htr]
      simp only [countComplete, countAbort] at hc ha ⊢
      refine ⟨?_, ?_, ?_⟩
      · simp [List.countP_cons, List.countP_append, hc, hok]
      · simp [List.countP_cons, List.countP_append, ha, hok, hcomp]
      · intro fresh hmem
        simp only [List.mem_cons, List.mem_append, List.not_mem_nil,
          or_false] at hmem
        rcases hmem with (h | h) | h | h
        · exact MpEvent.noConfusion h
        · exact absurd h (seqParts_no_abort partOk jobs fresh)
        · exact MpEvent.noConfusion h
        · injection h
  · have hok' : (seqParts partOk jobs).2 = false := by
      simpa using hok
    have htr : multipartDriverTrace true (seqParts partOk jobs) completeOk
        = (MpEvent.create :: (seqParts partOk jobs).1
            ++ [MpEvent.abort true], true) := by
      simp [multipartDriverTrace, hok']
    rw [htr]
    simp only [countComplete, countAbort] at hc ha ⊢
    refine ⟨?_, ?_, ?_⟩
    · simp [List.countP_cons, List.countP_append, hc, hok']
    · simp [List.countP_cons, List.countP_append, ha, hok']
    · intro fresh hmem
      simp only [List.mem_cons, List.mem_append, List.not_mem_nil,
        or_false] at hmem
      rcases hmem with (h | h) | h
      · exact MpEvent.noConfusion h
      · exact absurd h (seqParts_no_abort partOk jobs fresh)
      · injection h

/-- Witness for the amended C2: all parts succeed but complete fails. -/
theorem multipart_session_cleanup_witness :
    (true : Bool) = true
    ∧ (countComplete (multipartDriverTrace true
          (seqParts (fun _ => true) (partJobs 12 5)) false).1
        = (if (seqParts (fun _ => true) (partJobs 12 5)).2 = true then 1 else 0)
      ∧ countAbort (multipartDriverTrace true
          (seqParts (fun _ => true) (partJobs 12 5)) false).1
        = (if (seqParts (fun _ => true) (partJobs 12 5)).2 = true
              ∧ (false : Bool) = true then 0 else 1)
      ∧ (∀ fresh, MpEvent.abort fresh
            ∈ (multipartDriverTrace true
                (seqParts (fun _ => true) (partJobs 12 5)) false).1
          → fresh = true)) :=
  ⟨rfl, multipart_session_cleanup true false (fun _ => true) (partJobs 12 5) rfl⟩

/-! ## Single-file upload

Embeds `Uploader.UploadFile` (uploader.go): stat the source, return early on
`dry_run`, otherwise dispatch to `put_object` or one of the two multipart
entry points depending on size and `parallel_uploads`.  The client call made
by each path is recorded; whether it succeeds is an oracle bit.
-/

/-- `models.UploadOptions` fields consumed by the upload core (config.go). -/
structure UploadOptions where
  dryRun : Bool
  maxRetries : Int
  parallelUploads : Int
  multipartThreshold : Int
  multipartChunksize : Int
deriving DecidableEq, Repr

/-- `uploader.UploadResult` (uploader.go lines 170-178).  `hasError` models a
non-nil `Error` field. -/
structure UploadResult where
  source : String
  bucket : String
  key : String
  size : Int
  success : Bool
  hasError : Bool
  skippedReason : String
deriving DecidableEq, Repr

/-- A call into the `S3Operations` transport interface (client.go). -/
inductive ClientCall where
  | putObject
  | multipart
  | multipartParallel
deriving DecidableEq, Repr

/-- Result of one `UploadFile` invocation: the upload result, the transport
calls made, and whether the function returned a non-nil error. -/
structure FileOutcome where
  result : UploadResult
  calls : List ClientCall
  err : Bool
deriving DecidableEq, Repr

/-- `Uploader.UploadFile` (uploader.go lines 181-290).  `statSize` is the
`GetFileInfo` outcome (`none` models a stat error), `clientOk` whether the
transport call made on the chosen path succeeds. -/
def UploadFile (opts : UploadOptions) (statSize : Option Int) (clientOk : Bool)
    (filePath bucket key : String) : FileOutcome :=
  match statSize with
  | none =>
    { result := { source := filePath, bucket := bucket, key := key, size := 0,
                  success := false, hasError := true, skippedReason := "" },
      calls := [], err := true }
  | some sz =>
    if opts.dryRun then
      { result := { source := filePath, bucket := bucket, key := key, size := sz,
                    success := true, hasError := false,
                    skippedReason := "dry run mode" },
        calls := [], err := false }
    else if opts.multipartThreshold ≤ sz then
      let call := if 1 < opts.parallelUploads then ClientCall.multipartParallel
                  else ClientCall.multipart
      if clientOk then
        { result := { source := filePath, bucket := bucket, key := key,
                      size := sz, success := true, hasError := false,
                      skippedReason := "" },
          calls := [call], err := false }
      else
        { result := { source := filePath, bucket := bucket, key := key,
                      size := sz, success := false, hasError := true,
                      skippedReason := "" },
          calls := [call], err := true }
    else
      if clientOk then
        { result := { source := filePath, bucket := bucket, key := key,
                      size := sz, success := true, hasError := false,
                      skippedReason := "" },
          calls := [ClientCall.putObject], err := false }
      else
        { result := { source := filePath, bucket := bucket, key := key,
                      size := sz, success := false, hasError := true,
                      skippedReason := "" },
          calls := [ClientCall.putObject], err := true }

/-- C4 (counterexample): with `dry_run=true` on an existing 8-byte file the
result's `skipped_reason` is `"dry run mode"`, not `"dry run"` (the repo's
own test `TestUploadFile_DryRun` asserts `"dry run mode"`). -/
theorem dry_run_skipped_reason_not_dry_run :
    (UploadFile ⟨true, 3, 1, 100, 0⟩ (some 8) true "f.txt" "b" "k").result.skippedReason
        = "dry run mode"
    ∧ ¬ ((UploadFile ⟨true, 3, 1, 100, 0⟩ (some 8) true
          "f.txt" "b" "k").result.skippedReason = "dry run") := by
  constructor
  · rfl
  · intro h
    simp [UploadFile] at h

/-- C4 amended: for every upload attempt on an existing file with
`dry_run=true`, no transport call is made and the result has `success=true`
and `skipped_reason="dry run mode"` (in particular non-empty). -/
theorem dry_run_no_transport_calls
    (opts : UploadOptions) (statSize : Option Int) (clientOk : Bool)
    (filePath bucket key : String) (sz : Int)
    (hdry : opts.dryRun = true) (hstat : statSize = some sz) :
    (UploadFile opts statSize clientOk filePath bucket key).calls = []
    ∧ (UploadFile opts statSize clientOk filePath bucket key).result.success = true
    ∧ (UploadFile opts statSize clientOk filePath bucket key).result.skippedReason
        = "dry run mode"
    ∧ (UploadFile opts statSize clientOk filePath bucket key).result.skippedReason
        ≠ "" := by
  subst hstat
  simp [UploadFile, hdry]

/-- Witness for the amended C4. -/
theorem dry_run_no_transport_calls_witness :
    (⟨true, 3, 1, 100, 0⟩ : UploadOptions).dryRun = true
    ∧ (some 8 : Option Int) = some 8
    ∧ ((UploadFile ⟨true, 3, 1, 100, 0⟩ (some 8) true "f.txt" "b" "k").calls = []
      ∧ (UploadFile ⟨true, 3, 1, 100, 0⟩ (some 8) true
          "f.txt" "b" "k").result.success = true
      ∧ (UploadFile ⟨true, 3, 1, 100, 0⟩ (some 8) true
          "f.txt" "b" "k").result.skippedReason = "dry run mode"
      ∧ (UploadFile ⟨true, 3, 1, 100, 0⟩ (some 8) true
          "f.txt" "b" "k").result.skippedReason ≠ "") :=
  ⟨rfl, rfl,
    dry_run_no_transport_calls ⟨true, 3, 1, 100, 0⟩ (some 8) true
      "f.txt" "b" "k" 8 rfl rfl⟩

/-! ## Retry loop

Embeds `Uploader.UploadFileWithRetry` (retry.go lines 19-81): clamp negative
`MaxRetries` to 0, then loop `attempt = 0..maxRetries`; before each attempt
check the context, on a retry compute
`delay := time.Duration(1<<uint(attempt-1)) * time.Second` — int64
nanoseconds with 64-bit wrapping — cap it at 30 s and `time.Sleep(delay)`
(a non-positive duration sleeps not at all), run `UploadFile`, and return
its result on success.  After the loop the last result is returned with a
wrapping error.
-/

/-- Two's-complement wrap of an integer into the int64 range. -/
def wrap64 (x : Int) : Int := (x + 2 ^ 63) % 2 ^ 64 - 2 ^ 63

/-- `1 << uint(e)` on a 64-bit Go int: shift counts of 64 or more give 0,
count 63 lands on the negative minimum. -/
def goShift1 (e : Nat) : Int :=
  if 64 ≤ e then 0 else wrap64 (2 ^ e)

/-- `delay := time.Duration(1<<uint(attempt-1)) * time.Second`, then
`if delay > 30*time.Second { delay = 30 * time.Second }` (retry.go lines
51-54): int64 nanoseconds, the product wrapping before the cap is tested. -/
def retryDelayNs (attempt : Nat) : Int :=
  if wrap64 (goShift1 (attempt - 1) * 1000000000) > 30 * 1000000000 then
    30 * 1000000000
  else wrap64 (goShift1 (attempt - 1) * 1000000000)

/-- The nanoseconds `time.Sleep(delay)` actually sleeps: a non-positive
duration returns immediately. -/
def retrySleep (attempt : Nat) : Int :=
  if retryDelayNs attempt ≤ 0 then 0 else retryDelayNs attempt

/-- Trace of one `UploadFileWithRetry` call: how many `UploadFile` attempts
ran, the sleeps actually taken (in nanoseconds, in order), the returned
result, whether a non-nil error was returned, and whether the return was due
to cancellation. -/
structure RetryOutcome where
  attemptsMade : Nat
  delays : List Int
  result : UploadResult
  err : Bool
  cancelled : Bool
deriving DecidableEq, Repr

/-- The result built on the cancellation path (retry.go lines 30-40). -/
def cancelResult (filePath bucket key : String) : UploadResult :=
  { source := filePath, bucket := bucket, key := key, size := 0,
    success := false, hasError := true, skippedReason := "" }

/-- The retry loop body.  `upload k` is the outcome of `UploadFile` on
attempt `k` (result, non-nil error); `cancelled k` whether `ctx.Done()` is
observed at the check before attempt `k`; `remaining` the number of loop
iterations left (`maxRetries + 1 - attempt`). -/
def retryGo (upload : Nat → UploadResult × Bool) (cancelled : Nat → Bool)
    (filePath bucket key : String) : Nat → Nat → RetryOutcome
  | _, 0 =>
    { attemptsMade := 0, delays := [],
      result := cancelResult filePath bucket key, err := true,
      cancelled := false }
  | attempt, r + 1 =>
    if cancelled attempt then
      { attemptsMade := 0, delays := [],
        result := cancelResult filePath bucket key, err := true,
        cancelled := true }
    else
      let ds : List Int :=
        if attempt = 0 then [] else [retrySleep attempt]
      let res := upload attempt
      if res.2 then
        match r with
        | 0 =>
          { attemptsMade := 1, delays := ds,
            result := { res.1 with hasError := true }, err := true,
            cancelled := false }
        | r' + 1 =>
          let o := retryGo upload cancelled filePath bucket key
            (attempt + 1) (r' + 1)
          { attemptsMade := o.attemptsMade + 1, delays := ds ++ o.delays,
            result := o.result, err := o.err, cancelled := o.cancelled }
      else
        { attemptsMade := 1, delays := ds, result := res.1, err := false,
          cancelled := false }

/-- `Uploader.UploadFileWithRetry`: clamp `MaxRetries` and run the loop for
`maxRetries + 1` iterations starting at attempt 0. -/
def UploadFileWithRetry (upload : Nat → UploadResult × Bool)
    (cancelled : Nat → Bool) (filePath bucket key : String)
    (maxRetries : Int) : RetryOutcome :=
  retryGo upload cancelled filePath bucket key 0 ((max maxRetries 0).toNat + 1)

theorem retryGo_attempts_le (upload : Nat → UploadResult × Bool)
    (cancelled : Nat → Bool) (filePath bucket key : String) :
    ∀ r a, (retryGo upload cancelled filePath bucket key a r).attemptsMade ≤ r := by
  intro r
  induction r with
  | zero => intro a; simp [retryGo]
  | succ r ih =>
    intro a
    rw [retryGo]
    by_cases hcan : cancelled a
    · simp [hcan]
    · simp only [hcan, if_false, Bool.false_eq_true]
      by_cases herr : (upload a).2
      · simp only [herr, if_true]
        match r with
        | 0 => simp
        | r' + 1 =>
          have := ih (a + 1)
          simp only
          omega
      · simp [herr]

/-- Delay shape when the loop is entered at a retry attempt (`1 ≤ a`):
every attempt that runs is preceded by the sleep the code computes for it. -/
theorem retryGo_delays_pos (upload : Nat → UploadResult × Bool)
    (cancelled : Nat → Bool) (filePath bucket key : String) :
    ∀ r a, 1 ≤ a →
      (retryGo upload cancelled filePath bucket key a r).delays
        = (List.range' a
            (retryGo upload cancelled filePath bucket key a r).attemptsMade).map
          retrySleep := by
  intro r
  induction r with
  | zero => intro a _; simp [retryGo]
  | succ r ih =>
    intro a ha
    rw [retryGo]
    by_cases hcan : cancelled a
    · simp [hcan]
    · have ha0 : ¬ a = 0 := by omega
      simp only [hcan, if_false, Bool.false_eq_true, ha0]
      by_cases herr : (upload a).2
      · simp only [herr, if_true]
        match r with
        | 0 => simp [List.range'_one]
        | r' + 1 =>
          have hrec := ih (a + 1) (by omega)
          simp only
          rw [hrec, List.range'_succ]
          simp
      · simp [herr, List.range'_one]

/-- Delay shape of a full `UploadFileWithRetry` run (entered at attempt 0):
the first attempt has no delay, and retry attempt `j ≥ 1` is preceded by the
sleep the code computes for it. -/
theorem retryGo_delays_zero (upload : Nat → UploadResult × Bool)
    (cancelled : Nat → Bool) (filePath bucket key : String) (r : Nat) :
    (retryGo upload cancelled filePath bucket key 0 r).delays
      = (List.range' 1
          ((retryGo upload cancelled filePath bucket key 0 r).attemptsMade - 1)).map
        retrySleep := by
  match r with
  | 0 => simp [retryGo]
  | r + 1 =>
    rw [retryGo]
    by_cases hcan : cancelled 0
    · simp [hcan]
    · simp only [hcan, if_false, Bool.false_eq_true, if_pos rfl]
      by_cases herr : (upload 0).2
      · simp only [herr, if_true]
        match r with
        | 0 => simp
        | r' + 1 =>
          have hrec := retryGo_delays_pos upload cancelled filePath bucket key
            (r' + 1) 1 (by omega)
          simp only
          rw [hrec]
          simp
      · simp [herr]

/-- The check before each attempt: entering the loop with a cancelled
context performs no further `UploadFile` call and returns a cancellation
error immediately. -/
theorem retryGo_cancelled (upload : Nat → UploadResult × Bool)
    (cancelled : Nat → Bool) (filePath bucket key : String)
    (a r : Nat) (hcan : cancelled a = true) :
    retryGo upload cancelled filePath bucket key a (r + 1)
      = { attemptsMade := 0, delays := [],
          result := cancelResult filePath bucket key, err := true,
          cancelled := true } := by
  rw [retryGo, if_pos hcan]

set_option maxRecDepth 10000 in
/-- C6 (counterexample): with `maxRetries = 35`, every attempt failing and
no cancellation, the sleep before retry attempt 35 is 0 — the int64 product
`time.Duration(1<<34) * time.Second` wraps negative, the 30 s cap does not
fire, and `time.Sleep` returns immediately — not the claimed
`min(2^34, 30) = 30` seconds. -/
theorem backoff_overflow_counterexample :
    (UploadFileWithRetry
        (fun _ => ((UploadFile ⟨false, 35, 1, 100, 0⟩ none true "f" "b" "k").result,
          (UploadFile ⟨false, 35, 1, 100, 0⟩ none true "f" "b" "k").err))
        (fun _ => false) "f" "b" "k" 35).delays.get? 34 = some 0
    ∧ ¬ (UploadFileWithRetry
        (fun _ => ((UploadFile ⟨false, 35, 1, 100, 0⟩ none true "f" "b" "k").result,
          (UploadFile ⟨false, 35, 1, 100, 0⟩ none true "f" "b" "k").err))
        (fun _ => false) "f" "b" "k" 35).delays.get? 34
      = some (min ((2 : Int) ^ 34) 30 * 1000000000) := by
  decide

set_option maxRecDepth 10000 in
/-- C6 amended: `UploadFileWithRetry` performs at most `maxRetries + 1`
attempts; the first attempt has no delay and retry attempt `j ≥ 1` is
preceded by the sleep the code computes: the int64 nanosecond product
`2^(j-1) · 10⁹` (with 64-bit wrapping) capped at 30 s, slept only when
positive — which equals `min(2^(j-1), 30)` seconds for `1 ≤ j ≤ 34` (the
sequence 1s, 2s, 4s, … capped at 30s), while from `j = 35` the product
overflows (e.g. sleep 0 at `j = 35`); and whenever the check before an
attempt observes a cancelled context, no further attempt runs and a
cancellation error (`success=false`, non-nil error) is returned
immediately. -/
theorem upload_with_retry_backoff_wrapped
    (upload : Nat → UploadResult × Bool) (cancelled : Nat → Bool)
    (filePath bucket key : String) (maxRetries : Int)
    (hmr : 0 ≤ maxRetries) :
    (UploadFileWithRetry upload cancelled filePath bucket key
        maxRetries).attemptsMade ≤ maxRetries.toNat + 1
    ∧ (UploadFileWithRetry upload cancelled filePath bucket key
        maxRetries).delays
      = (List.range' 1
          ((UploadFileWithRetry upload cancelled filePath bucket key
              maxRetries).attemptsMade - 1)).map retrySleep
    ∧ (∀ j, j < 34 →
        retrySleep (j + 1) = min ((2 : Int) ^ j) 30 * 1000000000)
    ∧ retrySleep 35 = 0
    ∧ (∀ a r, cancelled a = true →
        retryGo upload cancelled filePath bucket key a (r + 1)
          = { attemptsMade := 0, delays := [],
              result := cancelResult filePath bucket key, err := true,
              cancelled := true }
        ∧ (cancelResult filePath bucket key).success = false
        ∧ (cancelResult filePath bucket key).hasError = true) := by
  have hclamp : (max maxRetries 0).toNat = maxRetries.toNat := by omega
  refine ⟨?_, ?_, ?_, ?_, ?_⟩
  · have := retryGo_attempts_le upload cancelled filePath bucket key
      ((max maxRetries 0).toNat + 1) 0
    rw [UploadFileWithRetry]
    omega
  · exact retryGo_delays_zero upload cancelled filePath bucket key _
  · decide
  · decide
  · intro a r hcan
    exact ⟨retryGo_cancelled upload cancelled filePath bucket key a r hcan,
      rfl, rfl⟩

/-- Witness for the amended C6: two failing attempts out of `maxRetries = 3`,
cancelled from attempt 2 on. -/
theorem upload_with_retry_backoff_wrapped_witness :
    (0 : Int) ≤ 3
    ∧ ((UploadFileWithRetry
          (fun j => ((UploadFile ⟨false, 3, 1, 100, 0⟩ (some 8) false
              "f" "b" "k").result,
            (UploadFile ⟨false, 3, 1, 100, 0⟩ (some 8) false "f" "b" "k").err))
          (fun j => decide (2 ≤ j)) "f" "b" "k" 3).attemptsMade ≤ (3 : Int).toNat + 1
      ∧ (UploadFileWithRetry
          (fun j => ((UploadFile ⟨false, 3, 1, 100, 0⟩ (some 8) false
              "f" "b" "k").result,
            (UploadFile ⟨false, 3, 1, 100, 0⟩ (some 8) false "f" "b" "k").err))
          (fun j => decide (2 ≤ j)) "f" "b" "k" 3).delays
        = (List.range' 1
            ((UploadFileWithRetry
              (fun j => ((UploadFile ⟨false, 3, 1, 100, 0⟩ (some 8) false
                  "f" "b" "k").result,
                (UploadFile ⟨false, 3, 1, 100, 0⟩ (some 8) false
                  "f" "b" "k").err))
              (fun j => decide (2 ≤ j)) "f" "b" "k" 3).attemptsMade - 1)).map
          retrySleep
      ∧ (∀ j, j < 34 →
          retrySleep (j + 1) = min ((2 : Int) ^ j) 30 * 1000000000)
      ∧ retrySleep 35 = 0
      ∧ (∀ a r, (fun j => decide (2 ≤ j)) a = true →
          retryGo
              (fun j => ((UploadFile ⟨false, 3, 1, 100, 0⟩ (some 8) false
                  "f" "b" "k").result,
                (UploadFile ⟨false, 3, 1, 100, 0⟩ (some 8) false
                  "f" "b" "k").err))
              (fun j => decide (2 ≤ j)) "f" "b" "k" a (r + 1)
            = { attemptsMade := 0, delays := [],
                result := cancelResult "f" "b" "k", err := true,
                cancelled := true }
          ∧ (cancelResult "f" "b" "k").success = false
          ∧ (cancelResult "f" "b" "k").hasError = true)) :=
  ⟨by decide,
    upload_with_retry_backoff_wrapped
      (fun j => ((UploadFile ⟨false, 3, 1, 100, 0⟩ (some 8) false
          "f" "b" "k").result,
        (UploadFile ⟨false, 3, 1, 100, 0⟩ (some 8) false "f" "b" "k").err))
      (fun j => decide (2 ≤ j)) "f" "b" "k" 3 (by decide)⟩

/-- C5 (counterexample): with `maxRetries = 1` and a source whose stat always
fails, `UploadFileWithRetry` performs two `UploadFile` attempts, not one —
the retry loop (retry.go lines 28-68) retries every error, including the
stat failure of a non-existent source. -/
theorem stat_error_not_permanent :
    (UploadFileWithRetry
        (fun _ => ((UploadFile ⟨false, 1, 1, 100, 0⟩ none true "f" "b" "k").result,
          (UploadFile ⟨false, 1, 1, 100, 0⟩ none true "f" "b" "k").err))
        (fun _ => false) "f" "b" "k" 1).attemptsMade = 2
    ∧ ¬ (UploadFileWithRetry
        (fun _ => ((UploadFile ⟨false, 1, 1, 100, 0⟩ none true "f" "b" "k").result,
          (UploadFile ⟨false, 1, 1, 100, 0⟩ none true "f" "b" "k").err))
        (fun _ => false) "f" "b" "k" 1).attemptsMade = 1 := by
  decide

theorem retryGo_all_fail (upload : Nat → UploadResult × Bool)
    (cancelled : Nat → Bool) (filePath bucket key : String)
    (hup : ∀ j, (upload j).2 = true)
    (hups : ∀ j, (upload j).1.success = false)
    (hcan : ∀ j, cancelled j = false) :
    ∀ r a, (retryGo upload cancelled filePath bucket key a r).attemptsMade = r
      ∧ (retryGo upload cancelled filePath bucket key a r).err = true
      ∧ (retryGo upload cancelled filePath bucket key a r).result.success
          = false := by
  intro r
  induction r with
  | zero => intro a; exact ⟨rfl, rfl, rfl⟩
  | succ r ih =>
    intro a
    rw [retryGo]
    simp only [hcan a, hup a, Bool.false_eq_true, if_false, if_true]
    match r with
    | 0 =>
      refine ⟨rfl, rfl, ?_⟩
      simp [hups a]
    | r' + 1 =>
      have hrec := ih (a + 1)
      simp only
      exact ⟨by rw [hrec.1], hrec.2.1, hrec.2.2⟩

/-- C5 amended: a missing source or stat failure is NOT a permanent failure —
it is retried like any other error: with a source whose stat always fails,
`UploadFileWithRetry` performs exactly `maxRetries + 1` attempts and then
returns `success=false` with a non-nil error. -/
theorem stat_error_all_attempts
    (opts : UploadOptions) (clientOk : Nat → Bool)
    (filePath bucket key : String) (hmr : 0 ≤ opts.maxRetries) :
    (UploadFileWithRetry
        (fun j => ((UploadFile opts none (clientOk j) filePath bucket key).result,
          (UploadFile opts none (clientOk j) filePath bucket key).err))
        (fun _ => false) filePath bucket key opts.maxRetries).attemptsMade
      = opts.maxRetries.toNat + 1
    ∧ (UploadFileWithRetry
        (fun j => ((UploadFile opts none (clientOk j) filePath bucket key).result,
          (UploadFile opts none (clientOk j) filePath bucket key).err))
        (fun _ => false) filePath bucket key opts.maxRetries).err = true
    ∧ (UploadFileWithRetry
        (fun j => ((UploadFile opts none (clientOk j) filePath bucket key).result,
          (UploadFile opts none (clientOk j) filePath bucket key).err))
        (fun _ => false) filePath bucket key opts.maxRetries).result.success
      = false := by
  have hclamp : (max opts.maxRetries 0).toNat = opts.maxRetries.toNat := by omega
  have h := retryGo_all_fail
    (fun j => ((UploadFile opts none (clientOk j) filePath bucket key).result,
      (UploadFile opts none (clientOk j) filePath bucket key).err))
    (fun _ => false) filePath bucket key
    (fun _ => rfl) (fun _ => rfl) (fun _ => rfl)
    ((max opts.maxRetries 0).toNat + 1) 0
  rw [UploadFileWithRetry]
  exact ⟨by rw [h.1, hclamp], h.2.1, h.2.2⟩

/-- Witness for the amended C5 at `maxRetries = 2`. -/
theorem stat_error_all_attempts_witness :
    (0 : Int) ≤ (⟨false, 2, 1, 100, 0⟩ : UploadOptions).maxRetries
    ∧ ((UploadFileWithRetry
          (fun j => ((UploadFile ⟨false, 2, 1, 100, 0⟩ none true "f" "b" "k").result,
            (UploadFile ⟨false, 2, 1, 100, 0⟩ none true "f" "b" "k").err))
          (fun _ => false) "f" "b" "k"
          (⟨false, 2, 1, 100, 0⟩ : UploadOptions).maxRetries).attemptsMade
        = (⟨false, 2, 1, 100, 0⟩ : UploadOptions).maxRetries.toNat + 1
      ∧ (UploadFileWithRetry
          (fun j => ((UploadFile ⟨false, 2, 1, 100, 0⟩ none true "f" "b" "k").result,
            (UploadFile ⟨false, 2, 1, 100, 0⟩ none true "f" "b" "k").err))
          (fun _ => false) "f" "b" "k"
          (⟨false, 2, 1, 100, 0⟩ : UploadOptions).maxRetries).err = true
      ∧ (UploadFileWithRetry
          (fun j => ((UploadFile ⟨false, 2, 1, 100, 0⟩ none true "f" "b" "k").result,
            (UploadFile ⟨false, 2, 1, 100, 0⟩ none true "f" "b" "k").err))
          (fun _ => false) "f" "b" "k"
          (⟨false, 2, 1, 100, 0⟩ : UploadOptions).maxRetries).result.success
        = false) :=
  ⟨by decide,
    stat_error_all_attempts ⟨false, 2, 1, 100, 0⟩ (fun _ => true)
      "f" "b" "k" (by decide)⟩

/-! ## Directory upload dispatch

Embeds `Uploader.UploadDirectoryWithRetry` (retry.go lines 84-106) and
`uploadDirectorySequentialWithRetry` (retry.go lines 109-141): the parallel
pool is used iff `ParallelUploads > 1` and the scan found strictly more files
than `ParallelUploads`; otherwise each file is uploaded in scan order through
`UploadFileWithRetry`.
-/

/-- `fileutils.FileInfo` (scanner.go lines 11-15). -/
structure FileInfo where
  path : String
  size : Nat
  relativePath : String
deriving DecidableEq, Repr

inductive DirStrategy where
  | parallel
  | sequential
deriving DecidableEq, Repr

/-- `Uploader.UploadDirectoryWithRetry`.  `files` is the scan result;
`upload`/`cancelled` are the per-file per-attempt oracles fed to
`UploadFileWithRetry`; `genKey` abstracts the external
`filepath.Join`/`filepath.ToSlash` key generation; `parallelResults`
abstracts the outcome of `UploadDirectoryParallel` (modelled separately).
Returns the chosen path and the result list. -/
def UploadDirectoryWithRetry (parallelUploads maxRetries : Int)
    (upload : String → Nat → UploadResult × Bool)
    (cancelled : String → Nat → Bool)
    (genKey : String → String → String) (bucket keyPref : String)
    (files : List FileInfo) (parallelResults : List UploadResult) :
    DirStrategy × List UploadResult :=
  if 1 < parallelUploads ∧ parallelUploads < (files.length : Int) then
    (DirStrategy.parallel, parallelResults)
  else
    (DirStrategy.sequential,
      files.map (fun fi =>
        (UploadFileWithRetry (upload fi.path) (cancelled fi.path) fi.path
          bucket (genKey keyPref fi.relativePath) maxRetries).result))

/-- C8: the pool is used iff `parallel_uploads > 1` and strictly more files
were scanned than `parallel_uploads`; otherwise every file goes through
`UploadFileWithRetry` sequentially, in scan order. -/
theorem directory_retry_dispatch (parallelUploads maxRetries : Int)
    (upload : String → Nat → UploadResult × Bool)
    (cancelled : String → Nat → Bool)
    (genKey : String → String → String) (bucket keyPref : String)
    (files : List FileInfo) (parallelResults : List UploadResult) :
    ((UploadDirectoryWithRetry parallelUploads maxRetries upload cancelled
        genKey bucket keyPref files parallelResults).1 = DirStrategy.parallel
      ↔ 1 < parallelUploads ∧ parallelUploads < (files.length : Int))
    ∧ ((UploadDirectoryWithRetry parallelUploads maxRetries upload cancelled
        genKey bucket keyPref files parallelResults).1 = DirStrategy.sequential
      → (UploadDirectoryWithRetry parallelUploads maxRetries upload cancelled
          genKey bucket keyPref files parallelResults).2
        = files.map (fun fi =>
            (UploadFileWithRetry (upload fi.path) (cancelled fi.path) fi.path
              bucket (genKey keyPref fi.relativePath) maxRetries).result)) := by
  by_cases hcond : 1 < parallelUploads ∧ parallelUploads < (files.length : Int)
  · rw [UploadDirectoryWithRetry, if_pos hcond]
    refine ⟨⟨fun _ => hcond, fun _ => rfl⟩, ?_⟩
    intro hseq
    exact absurd hseq (by simp)
  · rw [UploadDirectoryWithRetry, if_neg hcond]
    refine ⟨⟨fun hpar => absurd hpar (by simp), fun hc => absurd hc hcond⟩, ?_⟩
    intro _
    rfl

/-- Witness for C8: two workers, one file — the sequential path is taken. -/
theorem directory_retry_dispatch_witness :
    ((UploadDirectoryWithRetry 2 0
        (fun _ _ => (cancelResult "a" "b" "k", false)) (fun _ _ => false)
        (fun _ r => r) "b" "" [⟨"/d/a.txt", 3, "a.txt"⟩] []).1
      = DirStrategy.sequential)
    ∧ (UploadDirectoryWithRetry 2 0
        (fun _ _ => (cancelResult "a" "b" "k", false)) (fun _ _ => false)
        (fun _ r => r) "b" "" [⟨"/d/a.txt", 3, "a.txt"⟩] []).2
      = ([⟨"/d/a.txt", 3, "a.txt"⟩] : List FileInfo).map (fun fi =>
          (UploadFileWithRetry (fun _ => (cancelResult "a" "b" "k", false))
            (fun _ => false) fi.path "b" fi.relativePath 0).result) :=
  ⟨by decide,
    (directory_retry_dispatch 2 0
        (fun _ _ => (cancelResult "a" "b" "k", false)) (fun _ _ => false)
        (fun _ r => r) "b" "" [⟨"/d/a.txt", 3, "a.txt"⟩] []).2 (by decide)⟩

/-! ## Worker pool

Embeds `ParallelUploader.worker` and `UploadDirectoryParallel`
(parallel.go): each job read from the job channel produces exactly one
result on the result channel (carrying the job's source path), and the
collector gathers every result after `Stop()` drains the workers.  The
channel scheduling is embedded as an arbitrary permutation `processed` of the
submitted jobs: absent cancellation, the workers collectively consume each
submitted job exactly once, in some order.
-/

/-- `uploader.UploadJob` (parallel.go lines 14-19). -/
structure UploadJob where
  filePath : String
  bucket : String
  key : String
  jobId : Nat
deriving DecidableEq, Repr

/-- The per-attempt `UploadFile` oracle a worker uses for one job:
`Uploader.UploadFile` applied to the job's path, bucket and key. -/
def workerUploadOracle (opts : UploadOptions)
    (statSize : String → Nat → Option Int) (clientOk : String → Nat → Bool)
    (job : UploadJob) : Nat → UploadResult × Bool :=
  fun j =>
    ((UploadFile opts (statSize job.filePath j) (clientOk job.filePath j)
        job.filePath job.bucket job.key).result,
      (UploadFile opts (statSize job.filePath j) (clientOk job.filePath j)
        job.filePath job.bucket job.key).err)

/-- One pool worker processing one job (parallel.go lines 93-147): run
`UploadFileWithRetry` on the job and forward its result. -/
def workerProcess (opts : UploadOptions)
    (statSize : String → Nat → Option Int) (clientOk : String → Nat → Bool)
    (cancelled : String → Nat → Bool) (maxRetries : Int)
    (job : UploadJob) : UploadResult :=
  (UploadFileWithRetry (workerUploadOracle opts statSize clientOk job)
    (cancelled job.filePath) job.filePath job.bucket job.key maxRetries).result

/-- The result list collected by `UploadDirectoryParallel` (parallel.go
lines 170-234) when the workers process the submitted jobs in scheduler
order `processed`. -/
def poolResults (opts : UploadOptions)
    (statSize : String → Nat → Option Int) (clientOk : String → Nat → Bool)
    (cancelled : String → Nat → Bool) (maxRetries : Int)
    (processed : List UploadJob) : List UploadResult :=
  processed.map (workerProcess opts statSize clientOk cancelled maxRetries)

/-- Every branch of `UploadFile` stamps the result with the source path. -/
theorem UploadFile_source (opts : UploadOptions) (statSize : Option Int)
    (clientOk : Bool) (filePath bucket key : String) :
    (UploadFile opts statSize clientOk filePath bucket key).result.source
      = filePath := by
  cases statSize <;> simp only [UploadFile] <;> split_ifs <;> rfl

/-- Every branch of the retry loop returns a result carrying the file path. -/
theorem retryGo_source (upload : Nat → UploadResult × Bool)
    (cancelled : Nat → Bool) (filePath bucket key : String)
    (hsrc : ∀ j, (upload j).1.source = filePath) :
    ∀ r a, (retryGo upload cancelled filePath bucket key a r).result.source
      = filePath := by
  intro r
  induction r with
  | zero => intro a; rfl
  | succ r ih =>
    intro a
    rw [retryGo]
    by_cases hcan : cancelled a
    · simp [hcan, cancelResult]
    · simp only [hcan, Bool.false_eq_true, if_false]
      by_cases herr : (upload a).2
      · simp only [herr, if_true]
        match r with
        | 0 => simpa using hsrc a
        | r' + 1 => exact ih (a + 1)
      · simpa [herr] using hsrc a

theorem workerProcess_source (opts : UploadOptions)
    (statSize : String → Nat → Option Int) (clientOk : String → Nat → Bool)
    (cancelled : String → Nat → Bool) (maxRetries : Int) (job : UploadJob) :
    (workerProcess opts statSize clientOk cancelled maxRetries job).source
      = job.filePath := by
  rw [workerProcess, UploadFileWithRetry]
  exact retryGo_source _ _ _ _ _
    (fun j => UploadFile_source opts (statSize job.filePath j)
      (clientOk job.filePath j) job.filePath job.bucket job.key) _ _

/-- C9: absent cancellation (no per-file context check ever observes a
cancelled context), N submitted jobs yield exactly N results — one per job,
no duplicates — and the multiset of result source paths equals the multiset
of submitted job file paths, whatever order the scheduler processes jobs in. -/
theorem pool_results_complete (opts : UploadOptions)
    (statSize : String → Nat → Option Int) (clientOk : String → Nat → Bool)
    (cancelled : String → Nat → Bool) (maxRetries : Int)
    (jobs processed : List UploadJob)
    (hnc : ∀ p j, cancelled p j = false)
    (hsched : List.Perm processed jobs) :
    (poolResults opts statSize clientOk cancelled maxRetries processed).length
      = jobs.length
    ∧ List.Perm
        ((poolResults opts statSize clientOk cancelled maxRetries
          processed).map UploadResult.source)
        (jobs.map UploadJob.filePath) := by
  constructor
  · rw [poolResults, List.length_map]
    exact hsched.length_eq
  · rw [poolResults, List.map_map]
    have hfun : (UploadResult.source ∘
        workerProcess opts statSize clientOk cancelled maxRetries)
        = UploadJob.filePath := by
      funext job
      exact workerProcess_source opts statSize clientOk cancelled maxRetries job
    rw [hfun]
    exact hsched.map UploadJob.filePath

/-- Witness for C9: two jobs processed in swapped order. -/
theorem pool_results_complete_witness :
    (∀ (p : String) (j : Nat), (fun (_ : String) (_ : Nat) => false) p j = false)
    ∧ List.Perm [(⟨"/d/b.txt", "b", "b.txt", 1⟩ : UploadJob),
        ⟨"/d/a.txt", "b", "a.txt", 0⟩]
        [⟨"/d/a.txt", "b", "a.txt", 0⟩, ⟨"/d/b.txt", "b", "b.txt", 1⟩]
    ∧ ((poolResults ⟨false, 0, 4, 100, 0⟩ (fun _ _ => some 3) (fun _ _ => true)
          (fun _ _ => false) 0
          [⟨"/d/b.txt", "b", "b.txt", 1⟩, ⟨"/d/a.txt", "b", "a.txt", 0⟩]).length
        = ([⟨"/d/a.txt", "b", "a.txt", 0⟩, ⟨"/d/b.txt", "b", "b.txt", 1⟩]
            : List UploadJob).length
      ∧ List.Perm
          ((poolResults ⟨false, 0, 4, 100, 0⟩ (fun _ _ => some 3)
              (fun _ _ => true) (fun _ _ => false) 0
              [⟨"/d/b.txt", "b", "b.txt", 1⟩,
                ⟨"/d/a.txt", "b", "a.txt", 0⟩]).map UploadResult.source)
          (([⟨"/d/a.txt", "b", "a.txt", 0⟩, ⟨"/d/b.txt", "b", "b.txt", 1⟩]
              : List UploadJob).map UploadJob.filePath)) :=
  ⟨fun _ _ => rfl, by decide,
    pool_results_complete ⟨false, 0, 4, 100, 0⟩ (fun _ _ => some 3)
      (fun _ _ => true) (fun _ _ => false) 0
      [⟨"/d/a.txt", "b", "a.txt", 0⟩, ⟨"/d/b.txt", "b", "b.txt", 1⟩]
      [⟨"/d/b.txt", "b", "b.txt", 1⟩, ⟨"/d/a.txt", "b", "a.txt", 0⟩]
      (fun _ _ => rfl) (by decide)⟩

/-! ## Scanner exclusion

Embeds `FileScanner.ShouldExclude` (scanner.go lines 35-50): a path is
excluded when some pattern either glob-matches the path's base name
(`filepath.Match`, with a match error counting as no match) or occurs as a
literal substring of the whole path (`strings.Contains`).  The shell glob of
the Go standard library is an external collaborator and is abstracted as the
Boolean parameter `glob`.
-/

/-- `strings.Contains`: `sub` occurs as a contiguous substring of `s`. -/
def strContains (s sub : String) : Bool :=
  decide (List.IsInfix sub.data s.data)

/-- `filepath.Base` on a Unix path: strip trailing separators, then keep
everything after the last separator; `""` gives `"."` and an all-separator
path gives `"/"`. -/
def baseName (path : String) : String :=
  if path = "" then "."
  else
    if (path.data.reverse.dropWhile (· = '/')).reverse = [] then "/"
    else
      String.mk
        (((path.data.reverse.dropWhile (· = '/')).takeWhile (· ≠ '/')).reverse)

/-- `FileScanner.ShouldExclude`: for each pattern, match the base name with
the shell glob or the whole path by substring. -/
def ShouldExclude (glob : String → String → Bool) (patterns : List String)
    (filePath : String) : Bool :=
  patterns.any (fun pat => glob pat (baseName filePath)
    || strContains filePath pat)

/-- C7: the Scanner excludes path `p` iff some pattern `q` glob-matches
`base(p)` or occurs as a literal substring anywhere in `p`, for any glob
predicate (the code delegates the glob itself to `filepath.Match`). -/
theorem should_exclude_iff (glob : String → String → Bool)
    (patterns : List String) (p : String) :
    ShouldExclude glob patterns p = true
      ↔ ∃ q ∈ patterns, glob q (baseName p) = true
          ∨ List.IsInfix q.data p.data := by
  rw [ShouldExclude, List.any_eq_true]
  constructor
  · rintro ⟨q, hq, hmatch⟩
    rcases Bool.or_eq_true_iff.mp hmatch with h | h
    · exact ⟨q, hq, Or.inl h⟩
    · exact ⟨q, hq, Or.inr (of_decide_eq_true h)⟩
  · rintro ⟨q, hq, h | h⟩
    · exact ⟨q, hq, Bool.or_eq_true_iff.mpr (Or.inl h)⟩
    · exact ⟨q, hq, Bool.or_eq_true_iff.mpr (Or.inr (decide_eq_true h))⟩

/-! ## Recursive scan and root pruning

Embeds the `filepath.WalkDir` callback of `ScanDirectory` (scanner.go lines
71-114): a directory whose path matches the exclusion check is pruned
(`filepath.SkipDir`) only when `path != absDir`; the root itself is never
pruned.  Files matching the check are skipped individually.
-/

/-- An in-memory directory tree. -/
inductive FsEntry where
  | file (name : String) (size : Nat)
  | dir (name : String) (entries : List FsEntry)
deriving Repr

def FsEntry.name : FsEntry → String
  | .file n _ => n
  | .dir n _ => n

/-- A scanned file: its full path and size. -/
structure ScanFile where
  path : String
  size : Nat
deriving DecidableEq, Repr

mutual

/-- The walk callback applied to one entry at `path`. -/
def walkEntry (exclude : String → Bool) (absDir path : String) :
    FsEntry → List ScanFile
  | .file _ size => if exclude path then [] else [⟨path, size⟩]
  | .dir _ entries =>
    if exclude path = true ∧ path ≠ absDir then []
    else walkEntries exclude absDir path entries

/-- The walk over the children of a directory at `path`, in order. -/
def walkEntries (exclude : String → Bool) (absDir path : String) :
    List FsEntry → List ScanFile
  | [] => []
  | e :: rest =>
    walkEntry exclude absDir (path ++ "/" ++ e.name) e
      ++ walkEntries exclude absDir path rest

end

/-- C10: the prune check applies only to directories strictly below the
root: the walk of the root directory always descends into its children, even
when the root's own path matches the exclusion patterns, while any directory
strictly below the root that matches is pruned together with its subtree. -/
theorem root_never_pruned (exclude : String → Bool) (root nm : String)
    (entries : List FsEntry) (hroot : exclude root = true) :
    walkEntry exclude root root (FsEntry.dir nm entries)
        = walkEntries exclude root root entries
    ∧ (∀ path nm2 entries2, exclude path = true → path ≠ root →
        walkEntry exclude root path (FsEntry.dir nm2 entries2) = []) := by
  constructor
  · rw [walkEntry, if_neg]
    rintro ⟨_, hne⟩
    exact hne rfl
  · intro path nm2 entries2 hex hne
    rw [walkEntry, if_pos ⟨hex, hne⟩]

/-- Witness for C10: the root `/data/secret` matches the exclusion patterns
via glob on its base name, yet its child file is still scanned. -/
theorem root_never_pruned_witness :
    ShouldExclude (fun _ n => n == "secret") ["sec*"] "/data/secret" = true
    ∧ (walkEntry (ShouldExclude (fun _ n => n == "secret") ["sec*"])
          "/data/secret" "/data/secret"
          (FsEntry.dir "secret" [FsEntry.file "a.txt" 5])
        = walkEntries (ShouldExclude (fun _ n => n == "secret") ["sec*"])
          "/data/secret" "/data/secret" [FsEntry.file "a.txt" 5]
      ∧ (∀ path nm2 entries2,
          ShouldExclude (fun _ n => n == "secret") ["sec*"] path = true
          → path ≠ "/data/secret"
          → walkEntry (ShouldExclude (fun _ n => n == "secret") ["sec*"])
              "/data/secret" path (FsEntry.dir nm2 entries2) = [])) :=
  ⟨by decide,
    root_never_pruned (ShouldExclude (fun _ n => n == "secret") ["sec*"])
      "/data/secret" "secret" [FsEntry.file "a.txt" 5] (by decide)⟩

end S3up
